import Mathlib

/-!
# MoneyMate — aggregation and advice engine, shallow embedding

This file embeds the financial-aggregation and rule-based recommendation
logic of the MoneyMate budgeting application and proves the specified
properties about it.

The embedded code lives in two places of the repository:

* the `AIRecommendations` component (`loadFinancialData` and
  `getPersonalizedTips`): filtering/summing of transactions, the savings
  rate, the per-category expense breakdown, the top expense category,
  the monthly trend, and the threshold-rule tips;
* the `BudgetDashboard` component: the debt totals and the debt payoff
  estimate shown in the "Debt-Free Timeline" card.

Monetary amounts are JavaScript numbers in the source; they are embedded
as rationals (`ℚ`), so arithmetic (including the division in the savings
rate and the payoff estimate) is exact.  JavaScript objects used as
string-keyed dictionaries are embedded as association lists in insertion
order, which matches the enumeration order of string keys via
`Object.keys`.
-/

namespace MoneyMate

/-- `type` field of a transaction row (`'income' | 'expense'`). -/
inductive TxType where
  | income
  | expense
  deriving DecidableEq, Repr

/-- A row of the `transactions` table as consumed by the dashboard
(`Transaction` interface in `BudgetDashboard`). -/
structure Transaction where
  id : String
  type : TxType
  amount : ℚ
  category : String
  description : String
  date : String
  deriving DecidableEq, Repr

/-- A row of the `debts` table (`Debt` interface in `BudgetDashboard`). -/
structure Debt where
  id : String
  amount : ℚ
  interestRate : ℚ
  minimumPayment : ℚ
  description : String
  date : String
  deriving DecidableEq, Repr

/-- `monthlyTrend` field of `FinancialData`
(`'increasing' | 'decreasing' | 'stable'`). -/
inductive Trend where
  | increasing
  | decreasing
  | stable
  deriving DecidableEq, Repr

/-- `transactions.filter(t => t.type === 'income')`. -/
def incomeOf (txs : List Transaction) : List Transaction :=
  txs.filter (fun t => t.type = TxType.income)

/-- `transactions.filter(t => t.type === 'expense')`. -/
def expensesOf (txs : List Transaction) : List Transaction :=
  txs.filter (fun t => t.type = TxType.expense)

/-- `income.reduce((sum, t) => sum + t.amount, 0)`. -/
def totalIncome (txs : List Transaction) : ℚ :=
  (incomeOf txs).foldl (fun sum t => sum + t.amount) 0

/-- `expenses.reduce((sum, t) => sum + t.amount, 0)`. -/
def totalExpenses (txs : List Transaction) : ℚ :=
  (expensesOf txs).foldl (fun sum t => sum + t.amount) 0

/-- `balance = totalIncome - totalExpenses`. -/
def balance (txs : List Transaction) : ℚ :=
  totalIncome txs - totalExpenses txs

/-- `savingsRate = totalIncome > 0 ? (balance / totalIncome) * 100 : 0`. -/
def savingsRate (txs : List Transaction) : ℚ :=
  if 0 < totalIncome txs then balance txs / totalIncome txs * 100 else 0

/-- One step of building the expense breakdown:
`expenseBreakdown[category] = (expenseBreakdown[category] || 0) + amount`
on an insertion-ordered string-keyed object.  An existing key keeps its
position; a new key is appended at the end, as JavaScript objects do. -/
def addToBreakdown : List (String × ℚ) → String → ℚ → List (String × ℚ)
  | [], c, a => [(c, a)]
  | (k, v) :: rest, c, a =>
      if k = c then (k, v + a) :: rest
      else (k, v) :: addToBreakdown rest c a

/-- `expenses.forEach(expense => { expenseBreakdown[expense.category] =
(expenseBreakdown[expense.category] || 0) + expense.amount; })`. -/
def expenseBreakdown (txs : List Transaction) : List (String × ℚ) :=
  (expensesOf txs).foldl (fun bd t => addToBreakdown bd t.category t.amount) []

/-- JavaScript `>` on possibly-undefined numbers: comparing with
`undefined` is always `false`. -/
def optGt : Option ℚ → Option ℚ → Bool
  | some x, some y => x > y
  | _, _ => false

/-- `Object.keys(bd).reduce((a, b) => bd[a] > bd[b] ? a : b, 'Other')`
for a breakdown object `bd`: a key lookup on the object, with the JS
comparison semantics of `optGt` for absent keys. -/
def topFold (bd : List (String × ℚ)) : String :=
  (bd.map Prod.fst).foldl
    (fun a b => if optGt (bd.lookup a) (bd.lookup b) then a else b) "Other"

/-- `Object.keys(expenseBreakdown).reduce((a, b) =>
expenseBreakdown[a] > expenseBreakdown[b] ? a : b, 'Other')`. -/
def topExpenseCategory (txs : List Transaction) : String :=
  topFold (expenseBreakdown txs)

/-- `biggestExpense = expenseBreakdown[topExpenseCategory] || 0`. -/
def biggestExpense (txs : List Transaction) : ℚ :=
  ((expenseBreakdown txs).lookup (topExpenseCategory txs)).getD 0

/-- `monthlyTrend = balance > 0 ? 'increasing' : 'decreasing'`. -/
def monthlyTrend (txs : List Transaction) : Trend :=
  if 0 < balance txs then Trend.increasing else Trend.decreasing

/-- The `FinancialData` record assembled by `loadFinancialData`. -/
structure FinancialData where
  totalIncome : ℚ
  totalExpenses : ℚ
  balance : ℚ
  savingsRate : ℚ
  expenseBreakdown : List (String × ℚ)
  topExpenseCategory : String
  biggestExpense : ℚ
  monthlyTrend : Trend
  deriving DecidableEq, Repr

/-- The pure aggregation performed by `loadFinancialData` on the list of
transactions (the spec's `computeSnapshot`). -/
def computeSnapshot (txs : List Transaction) : FinancialData :=
  { totalIncome := totalIncome txs
    totalExpenses := totalExpenses txs
    balance := balance txs
    savingsRate := savingsRate txs
    expenseBreakdown := expenseBreakdown txs
    topExpenseCategory := topExpenseCategory txs
    biggestExpense := biggestExpense txs
    monthlyTrend := monthlyTrend txs }

/-- Identity of a tip pushed by `getPersonalizedTips`; the static text of
each tip is determined by its constructor, and the dynamic pieces of the
"Optimize Your Biggest Expense" tip are carried as data. -/
inductive Tip where
  | boostSavings
  | optimizeBiggest (category : String)
  | addressOverspending
  | doingGreat
  deriving DecidableEq, Repr

/-- `getPersonalizedTips(data)`: pushes a tip for each matching threshold
rule onto `tips` in declaration order (the source's `0.4` is written
`2 / 5`), then falls back to the "You're Doing Great!" tip when `tips` is
still empty. -/
def getPersonalizedTips (d : FinancialData) : List Tip :=
  let tips : List Tip := []
  let tips := if d.savingsRate < 20 then tips ++ [Tip.boostSavings] else tips
  let tips :=
    if d.biggestExpense > d.totalExpenses * (2 / 5)
    then tips ++ [Tip.optimizeBiggest d.topExpenseCategory] else tips
  let tips := if d.balance < 0 then tips ++ [Tip.addressOverspending] else tips
  if tips.isEmpty then [Tip.doingGreat] else tips

/-- `debts.reduce((sum, debt) => sum + debt.amount, 0)`. -/
def totalDebt (debts : List Debt) : ℚ :=
  debts.foldl (fun sum d => sum + d.amount) 0

/-- `debts.reduce((sum, debt) => sum + debt.minimumPayment, 0)`. -/
def monthlyDebtPayment (debts : List Debt) : ℚ :=
  debts.foldl (fun sum d => sum + d.minimumPayment) 0

/-- `availableForDebt = income - expenses` in `BudgetDashboard`. -/
def availableForDebt (txs : List Transaction) : ℚ :=
  totalIncome txs - totalExpenses txs

/-- The "Debt-Free Timeline" estimate: `availableForDebt >
monthlyDebtPayment ? Math.ceil(totalDebt / (availableForDebt -
monthlyDebtPayment)) : ` no numeric estimate ("Focus on income first"). -/
def payoffMonthsEstimate (debts : List Debt) (txs : List Transaction) :
    Option ℤ :=
  if monthlyDebtPayment debts < availableForDebt txs
  then some ⌈totalDebt debts / (availableForDebt txs - monthlyDebtPayment debts)⌉
  else none

/-! ## Derived definitions used in the statements -/

/-- Sum of the per-category amounts of a breakdown object. -/
def sumValues (bd : List (String × ℚ)) : ℚ :=
  (bd.map Prod.snd).sum

/-- Amount recorded for category `k` in a breakdown object; a missing key
reads as 0 (`expenseBreakdown[k] || 0`). -/
def valueOf (bd : List (String × ℚ)) (k : String) : ℚ :=
  (bd.lookup k).getD 0

/-- One step of the argmax fold on (key, amount) pairs: the accumulator
survives only when its amount is strictly greater, so on a tie the later
pair wins — mirroring `bd[a] > bd[b] ? a : b`. -/
def pairStep (a : Option (String × ℚ)) (b : String × ℚ) : Option (String × ℚ) :=
  match a with
  | none => some b
  | some q => if q.2 > b.2 then some q else some b

/-- Modelled from the claim's words (for refutation): the category with
the largest summed amount, ties broken in favour of the category FIRST
encountered in input order. -/
def dominantFirstSpec (bd : List (String × ℚ)) : Option String :=
  (bd.foldl (fun acc p =>
      match acc with
      | none => some p
      | some q => if p.2 > q.2 then some p else some q) none).map Prod.fst

/-- The ordered threshold-rule table of `getPersonalizedTips`, as the spec
describes it: independent boolean predicates paired with the
recommendation they produce. -/
def ruleList : List ((FinancialData → Bool) × (FinancialData → Tip)) :=
  [ (fun d => d.savingsRate < 20, fun _ => Tip.boostSavings),
    (fun d => d.biggestExpense > d.totalExpenses * (2 / 5),
      fun d => Tip.optimizeBiggest d.topExpenseCategory),
    (fun d => d.balance < 0, fun _ => Tip.addressOverspending) ]

/-- Modelled from the spec's words: the recommendations of exactly the
rules whose predicates hold, in rule-declaration order, with the
"well balanced" fallback when no rule matches. -/
def generateRecommendationsSpec (d : FinancialData) : List Tip :=
  let fired := (ruleList.filter (fun r => r.1 d)).map (fun r => r.2 d)
  if fired.isEmpty then [Tip.doingGreat] else fired

/-! ## Concrete inputs used in the spec's scenarios and in counterexamples -/

/-- The spec's scenario: one income of 5000 (Salary), expenses of 1200
(Food & Dining) and 800 (Shopping). -/
def exampleTxs : List Transaction :=
  [ ⟨"1", TxType.income, 5000, "Salary", "salary", "2025-01-01"⟩,
    ⟨"2", TxType.expense, 1200, "Food & Dining", "groceries", "2025-01-02"⟩,
    ⟨"3", TxType.expense, 800, "Shopping", "clothes", "2025-01-03"⟩ ]

/-- Two expense categories tied at 100, category "A" encountered first. -/
def tieTxs : List Transaction :=
  [ ⟨"1", TxType.expense, 100, "A", "a", "2025-01-01"⟩,
    ⟨"2", TxType.expense, 100, "B", "b", "2025-01-02"⟩ ]

/-- One debt of 5000 with a minimum payment of 500 (the spec's debt
scenario, paired with the 3000 balance of `exampleTxs`). -/
def exampleDebts : List Debt := [⟨"d1", 5000, 10, 500, "card", "2025-01-01"⟩]

/-- Transactions whose snapshot has a negative balance while the savings
and biggest-expense rules also fire. -/
def overspendTxs : List Transaction :=
  [ ⟨"1", TxType.income, 1000, "Salary", "salary", "2025-01-01"⟩,
    ⟨"2", TxType.expense, 1500, "Food & Dining", "groceries", "2025-01-02"⟩ ]

/-! ## General lemmas about the folds used by the engine -/

/-- The `reduce((sum, x) => sum + f(x), init)` pattern computes
`init` plus the sum of the mapped list. -/
theorem foldl_add_map {α : Type} (f : α → ℚ) :
    ∀ (l : List α) (i : ℚ), l.foldl (fun s x => s + f x) i = i + (l.map f).sum
  | [], i => by simp
  | x :: l, i => by
      rw [List.foldl_cons, foldl_add_map f l (i + f x)]
      simp [add_assoc]

theorem totalIncome_eq_sum (txs : List Transaction) :
    totalIncome txs = ((incomeOf txs).map Transaction.amount).sum := by
  rw [totalIncome, foldl_add_map, zero_add]

theorem totalExpenses_eq_sum (txs : List Transaction) :
    totalExpenses txs = ((expensesOf txs).map Transaction.amount).sum := by
  rw [totalExpenses, foldl_add_map, zero_add]

theorem sumValues_addToBreakdown (bd : List (String × ℚ)) (c : String) (a : ℚ) :
    sumValues (addToBreakdown bd c a) = sumValues bd + a := by
  induction bd with
  | nil => simp [addToBreakdown, sumValues]
  | cons p rest ih =>
      obtain ⟨k, v⟩ := p
      by_cases hk : k = c
      · simp [addToBreakdown, hk, sumValues, add_assoc, add_comm, add_left_comm]
      · simp only [addToBreakdown, if_neg hk, sumValues, List.map_cons, List.sum_cons] at ih ⊢
        rw [ih]
        ring

theorem sumValues_foldl (es : List Transaction) :
    ∀ bd : List (String × ℚ),
      sumValues (es.foldl (fun bd t => addToBreakdown bd t.category t.amount) bd) =
        sumValues bd + (es.map Transaction.amount).sum := by
  induction es with
  | nil => intro bd; simp
  | cons t es ih =>
      intro bd
      rw [List.foldl_cons, ih, sumValues_addToBreakdown]
      simp [add_assoc, add_comm, add_left_comm]

theorem valueOf_addToBreakdown (bd : List (String × ℚ)) (c : String) (a : ℚ) (k : String) :
    valueOf (addToBreakdown bd c a) k = valueOf bd k + (if c = k then a else 0) := by
  induction bd with
  | nil =>
      by_cases hck : c = k
      · subst hck; simp [addToBreakdown, valueOf, List.lookup]
      · have hb : (k == c) = false := beq_eq_false_iff_ne.mpr (Ne.symm hck)
        simp [addToBreakdown, valueOf, List.lookup, hb, hck]
  | cons p rest ih =>
      obtain ⟨k', v⟩ := p
      by_cases hk'c : k' = c
      · subst hk'c
        by_cases hk'k : k' = k
        · subst hk'k
          simp [addToBreakdown, valueOf, List.lookup]
        · have hb : (k == k') = false := beq_eq_false_iff_ne.mpr (Ne.symm hk'k)
          simp [addToBreakdown, valueOf, List.lookup, hb, hk'k]
      · by_cases hk'k : k' = k
        · subst hk'k
          simp [addToBreakdown, if_neg hk'c, valueOf, List.lookup, Ne.symm hk'c]
        · have hb : (k == k') = false := beq_eq_false_iff_ne.mpr (Ne.symm hk'k)
          simp only [addToBreakdown, if_neg hk'c, valueOf, List.lookup, hb] at ih ⊢
          exact ih

theorem valueOf_foldl (es : List Transaction) :
    ∀ (bd : List (String × ℚ)) (k : String),
      valueOf (es.foldl (fun bd t => addToBreakdown bd t.category t.amount) bd) k =
        valueOf bd k + (es.map (fun t => if t.category = k then t.amount else 0)).sum := by
  induction es with
  | nil => intro bd k; simp
  | cons t es ih =>
      intro bd k
      rw [List.foldl_cons, ih, valueOf_addToBreakdown]
      simp [add_assoc, add_comm, add_left_comm]

/-- The per-category value of the breakdown is the sum of the matching
expense amounts. -/
theorem valueOf_expenseBreakdown (txs : List Transaction) (k : String) :
    valueOf (expenseBreakdown txs) k =
      ((expensesOf txs).map (fun t => if t.category = k then t.amount else 0)).sum := by
  rw [expenseBreakdown, valueOf_foldl]
  simp [valueOf]

theorem pairStep_fold_congr (t : List (String × ℚ)) :
    ∀ p h : String × ℚ, h.2 ≤ p.2 → (∃ q ∈ t, p.2 ≤ q.2) →
      t.foldl pairStep (some p) = t.foldl pairStep (some h) := by
  induction t with
  | nil =>
      intro p h _ hex
      obtain ⟨q, hq, _⟩ := hex
      simp at hq
  | cons r s ih =>
      intro p h hle hex
      by_cases hpr : p.2 ≤ r.2
      · have h1 : pairStep (some p) r = some r := by
          simp [pairStep, not_lt.2 hpr]
        have h2 : pairStep (some h) r = some r := by
          simp [pairStep, not_lt.2 (le_trans hle hpr)]
        rw [List.foldl_cons, List.foldl_cons, h1, h2]
      · push_neg at hpr
        have h1 : pairStep (some p) r = some p := by simp [pairStep, hpr]
        obtain ⟨q, hq, hpq⟩ := hex
        have hq' : q ∈ s := by
          rcases List.mem_cons.1 hq with rfl | hq'
          · exact absurd hpq (not_le.2 hpr)
          · exact hq'
        rw [List.foldl_cons, List.foldl_cons, h1]
        by_cases hhr : r.2 < h.2
        · have h2 : pairStep (some h) r = some h := by simp [pairStep, hhr]
          rw [h2]
          exact ih p h hle ⟨q, hq', hpq⟩
        · have h2 : pairStep (some h) r = some r := by simp [pairStep, hhr]
          rw [h2]
          exact ih p r (le_of_lt hpr) ⟨q, hq', hpq⟩

theorem pairStep_fold_none (l : List (String × ℚ)) (p : String × ℚ)
    (hex : ∃ q ∈ l, p.2 ≤ q.2) :
    l.foldl pairStep (some p) = l.foldl pairStep none := by
  cases l with
  | nil =>
      obtain ⟨q, hq, _⟩ := hex
      simp at hq
  | cons h t =>
      rw [List.foldl_cons, List.foldl_cons]
      have hn : pairStep none h = some h := rfl
      rw [hn]
      by_cases hph : p.2 ≤ h.2
      · have h1 : pairStep (some p) h = some h := by simp [pairStep, not_lt.2 hph]
        rw [h1]
      · push_neg at hph
        have h1 : pairStep (some p) h = some p := by simp [pairStep, hph]
        rw [h1]
        obtain ⟨q, hq, hpq⟩ := hex
        have hq' : q ∈ t := by
          rcases List.mem_cons.1 hq with rfl | hq'
          · exact absurd hpq (not_le.2 hph)
          · exact hq'
        exact pairStep_fold_congr t p h (le_of_lt hph) ⟨q, hq', hpq⟩

theorem pairStep_fold_split :
    ∀ (l : List (String × ℚ)) (p0 : String × ℚ),
      ∃ p, l.foldl pairStep (some p0) = some p ∧ p0.2 ≤ p.2 ∧
        ((p = p0 ∧ ∀ x ∈ l, x.2 < p0.2) ∨
         ∃ l1 l2, l = l1 ++ p :: l2 ∧ (∀ x ∈ l1, x.2 ≤ p.2) ∧ (∀ x ∈ l2, x.2 < p.2)) := by
  intro l
  induction l with
  | nil =>
      intro p0
      exact ⟨p0, rfl, le_refl _, Or.inl ⟨rfl, by simp⟩⟩
  | cons h t ih =>
      intro p0
      by_cases hh : h.2 < p0.2
      · have hs : pairStep (some p0) h = some p0 := by simp [pairStep, hh]
        obtain ⟨p, hfold, hle, hcases⟩ := ih p0
        refine ⟨p, by rw [List.foldl_cons, hs]; exact hfold, hle, ?_⟩
        rcases hcases with ⟨rfl, hall⟩ | ⟨l1, l2, heq, h1, h2⟩
        · refine Or.inl ⟨rfl, ?_⟩
          intro x hx
          rcases List.mem_cons.1 hx with rfl | hx'
          · exact hh
          · exact hall x hx'
        · refine Or.inr ⟨h :: l1, l2, by rw [heq, List.cons_append], ?_, h2⟩
          intro x hx
          rcases List.mem_cons.1 hx with rfl | hx'
          · exact le_trans (le_of_lt hh) hle
          · exact h1 x hx'
      · push_neg at hh
        have hs : pairStep (some p0) h = some h := by simp [pairStep, not_lt.2 hh]
        obtain ⟨p, hfold, hle, hcases⟩ := ih h
        refine ⟨p, by rw [List.foldl_cons, hs]; exact hfold, le_trans hh hle, ?_⟩
        rcases hcases with ⟨rfl, hall⟩ | ⟨l1, l2, heq, h1, h2⟩
        · exact Or.inr ⟨[], t, by simp, by simp, hall⟩
        · refine Or.inr ⟨h :: l1, l2, by rw [heq, List.cons_append], ?_, h2⟩
          intro x hx
          rcases List.mem_cons.1 hx with rfl | hx'
          · exact hle
          · exact h1 x hx'

theorem pairStep_fold_none_split (l : List (String × ℚ)) (hne : l ≠ []) :
    ∃ p, l.foldl pairStep none = some p ∧
      ∃ l1 l2, l = l1 ++ p :: l2 ∧ (∀ x ∈ l1, x.2 ≤ p.2) ∧ (∀ x ∈ l2, x.2 < p.2) := by
  cases l with
  | nil => exact absurd rfl hne
  | cons h t =>
      rw [List.foldl_cons]
      have hn : pairStep none h = some h := rfl
      rw [hn]
      obtain ⟨p, hfold, hle, hcases⟩ := pairStep_fold_split t h
      refine ⟨p, hfold, ?_⟩
      rcases hcases with ⟨rfl, hall⟩ | ⟨l1, l2, heq, h1, h2⟩
      · exact ⟨[], t, by simp, by simp, hall⟩
      · refine ⟨h :: l1, l2, by rw [heq, List.cons_append], ?_, h2⟩
        intro x hx
        rcases List.mem_cons.1 hx with rfl | hx'
        · exact hle
        · exact h1 x hx'

theorem keys_addToBreakdown (bd : List (String × ℚ)) (c : String) (a : ℚ) :
    (addToBreakdown bd c a).map Prod.fst =
      if c ∈ bd.map Prod.fst then bd.map Prod.fst else bd.map Prod.fst ++ [c] := by
  induction bd with
  | nil => simp [addToBreakdown]
  | cons p rest ih =>
      obtain ⟨k, v⟩ := p
      by_cases hk : k = c
      · subst hk
        simp [addToBreakdown]
      · by_cases hc : c ∈ rest.map Prod.fst
        · simp [addToBreakdown, if_neg hk, ih, hc, Ne.symm hk]
        · simp [addToBreakdown, if_neg hk, ih, hc, Ne.symm hk]

theorem keysNodup_addToBreakdown (bd : List (String × ℚ)) (c : String) (a : ℚ)
    (h : (bd.map Prod.fst).Nodup) : ((addToBreakdown bd c a).map Prod.fst).Nodup := by
  rw [keys_addToBreakdown]
  by_cases hc : c ∈ bd.map Prod.fst
  · rw [if_pos hc]; exact h
  · rw [if_neg hc]
    simp [List.nodup_append, h, hc]

theorem keysNodup_foldl (es : List Transaction) :
    ∀ bd : List (String × ℚ), (bd.map Prod.fst).Nodup →
      ((es.foldl (fun bd t => addToBreakdown bd t.category t.amount) bd).map Prod.fst).Nodup := by
  induction es with
  | nil => intro bd h; exact h
  | cons t es ih =>
      intro bd h
      rw [List.foldl_cons]
      exact ih _ (keysNodup_addToBreakdown bd t.category t.amount h)

theorem keysNodup_expenseBreakdown (txs : List Transaction) :
    ((expenseBreakdown txs).map Prod.fst).Nodup :=
  keysNodup_foldl (expensesOf txs) [] (by simp)

theorem lookup_of_mem_nodup :
    ∀ bd : List (String × ℚ), (bd.map Prod.fst).Nodup →
      ∀ p ∈ bd, bd.lookup p.1 = some p.2 := by
  intro bd
  induction bd with
  | nil => intro _ p hp; simp at hp
  | cons q rest ih =>
      intro h p hp
      obtain ⟨k, v⟩ := q
      simp only [List.map_cons, List.nodup_cons] at h
      rcases List.mem_cons.1 hp with rfl | hp'
      · simp [List.lookup]
      · have hne : p.1 ≠ k := by
          intro he
          exact h.1 (he ▸ List.mem_map_of_mem Prod.fst hp')
        have hb : (p.1 == k) = false := beq_eq_false_iff_ne.mpr hne
        simp only [List.lookup, hb]
        exact ih h.2 p hp'

theorem mem_of_lookup :
    ∀ (bd : List (String × ℚ)) (k : String) (v : ℚ),
      bd.lookup k = some v → (k, v) ∈ bd := by
  intro bd
  induction bd with
  | nil => intro k v h; simp [List.lookup] at h
  | cons q rest ih =>
      intro k v h
      obtain ⟨k', v'⟩ := q
      by_cases hk : k = k'
      · subst hk
        simp only [List.lookup, beq_self_eq_true] at h
        injection h with h
        subst h
        exact List.mem_cons_self _ _
      · have hb : (k == k') = false := beq_eq_false_iff_ne.mpr hk
        simp only [List.lookup, hb] at h
        exact List.mem_cons_of_mem _ (ih k v h)

/-- The key-indexed `reduce` of the source coincides with the direct fold
on (key, amount) pairs, once every visited key looks up to its amount. -/
theorem keyFold_eq_pairFold (ν : String → Option ℚ) :
    ∀ (ks : List (String × ℚ)) (q : String × ℚ),
      (∀ x ∈ ks, ν x.1 = some x.2) → ν q.1 = some q.2 →
      ∃ p, ks.foldl pairStep (some q) = some p ∧
        (ks.map Prod.fst).foldl (fun a b => if optGt (ν a) (ν b) then a else b) q.1 = p.1 := by
  intro ks
  induction ks with
  | nil => intro q _ _; exact ⟨q, rfl, rfl⟩
  | cons x t ih =>
      intro q hall hq
      have hx : ν x.1 = some x.2 := hall x (List.mem_cons_self _ _)
      have hall' : ∀ y ∈ t, ν y.1 = some y.2 := fun y hy => hall y (List.mem_cons_of_mem _ hy)
      by_cases hgt : x.2 < q.2
      · have hstep : (if optGt (ν q.1) (ν x.1) then q.1 else x.1) = q.1 := by
          rw [hq, hx]
          simp [optGt, hgt]
        have hpair : pairStep (some q) x = some q := by simp [pairStep, hgt]
        obtain ⟨p, h1, h2⟩ := ih q hall' hq
        exact ⟨p, by rw [List.foldl_cons, hpair]; exact h1,
          by rw [List.map_cons, List.foldl_cons, hstep]; exact h2⟩
      · have hstep : (if optGt (ν q.1) (ν x.1) then q.1 else x.1) = x.1 := by
          rw [hq, hx]
          simp [optGt, hgt]
        have hpair : pairStep (some q) x = some x := by simp [pairStep, hgt]
        obtain ⟨p, h1, h2⟩ := ih x hall' hx
        exact ⟨p, by rw [List.foldl_cons, hpair]; exact h1,
          by rw [List.map_cons, List.foldl_cons, hstep]; exact h2⟩

/-- On a non-empty breakdown object with distinct keys, the source's
`reduce` over `Object.keys` lands on a key whose amount is maximal and
which every strictly later key undercuts: the maximum with ties broken in
favour of the key encountered last. -/
theorem topFold_split (bd : List (String × ℚ)) (hne : bd ≠ [])
    (hnodup : (bd.map Prod.fst).Nodup) :
    ∃ v l1 l2, bd = l1 ++ (topFold bd, v) :: l2 ∧
      (∀ p ∈ l1, p.2 ≤ v) ∧ (∀ p ∈ l2, p.2 < v) := by
  have hall : ∀ x ∈ bd, bd.lookup x.1 = some x.2 := lookup_of_mem_nodup bd hnodup
  have hkey : ∃ p, bd.foldl pairStep none = some p ∧ topFold bd = p.1 := by
    cases hOther : bd.lookup "Other" with
    | none =>
        obtain ⟨x, t, hbd⟩ := List.exists_cons_of_ne_nil hne
        have hx : bd.lookup x.1 = some x.2 := hall x (by rw [hbd]; exact List.mem_cons_self _ _)
        have hall' : ∀ y ∈ t, bd.lookup y.1 = some y.2 := fun y hy =>
          hall y (by rw [hbd]; exact List.mem_cons_of_mem _ hy)
        obtain ⟨p, h1, h2⟩ := keyFold_eq_pairFold (fun k => bd.lookup k) t x hall' hx
        refine ⟨p, ?_, ?_⟩
        · rw [hbd, List.foldl_cons]
          exact h1
        · rw [topFold, hbd, List.map_cons, List.foldl_cons, ← hbd]
          have hstep : (if optGt (bd.lookup "Other") (bd.lookup x.1)
              then "Other" else x.1) = x.1 := by
            rw [hOther]
            simp [optGt]
          rw [hstep]
          exact h2
    | some v0 =>
        have hmem : ("Other", v0) ∈ bd := mem_of_lookup bd "Other" v0 hOther
        obtain ⟨p, h1, h2⟩ := keyFold_eq_pairFold (fun k => bd.lookup k) bd
          ("Other", v0) hall hOther
        refine ⟨p, ?_, h2⟩
        rw [← pairStep_fold_none bd ("Other", v0) ⟨("Other", v0), hmem, le_refl _⟩]
        exact h1
  obtain ⟨p, hfold, htop⟩ := hkey
  obtain ⟨p', hfold', l1, l2, heq, h1, h2⟩ := pairStep_fold_none_split bd hne
  rw [hfold] at hfold'
  injection hfold' with hpp
  subst hpp
  refine ⟨p.2, l1, l2, ?_, h1, h2⟩
  rw [htop]
  simpa using heq

/-! ## Claim theorems -/

/-- Claim C5: `computeSnapshot` applied to the empty transaction list
yields zero totals, zero balance, zero savings rate and an empty expense
breakdown. -/
theorem computeSnapshot_empty :
    (computeSnapshot []).totalIncome = 0 ∧
    (computeSnapshot []).totalExpenses = 0 ∧
    (computeSnapshot []).balance = 0 ∧
    (computeSnapshot []).savingsRate = 0 ∧
    (computeSnapshot []).expenseBreakdown = [] := by
  refine ⟨rfl, rfl, ?_, ?_, rfl⟩ <;>
    simp [computeSnapshot, balance, savingsRate, totalIncome, totalExpenses, incomeOf, expensesOf]

/-- Claim C7: for every transaction list (with non-negative amounts, as
the data model requires), the income and expense totals are non-negative
and the balance is exactly their difference. -/
theorem totals_nonneg_balance (txs : List Transaction)
    (h : ∀ t ∈ txs, 0 ≤ t.amount) :
    0 ≤ totalIncome txs ∧ 0 ≤ totalExpenses txs ∧
    balance txs = totalIncome txs - totalExpenses txs := by
  refine ⟨?_, ?_, rfl⟩
  · rw [totalIncome_eq_sum]
    refine List.sum_nonneg ?_
    intro x hx
    obtain ⟨t, ht, rfl⟩ := List.mem_map.1 hx
    exact h t (List.mem_of_mem_filter ht)
  · rw [totalExpenses_eq_sum]
    refine List.sum_nonneg ?_
    intro x hx
    obtain ⟨t, ht, rfl⟩ := List.mem_map.1 hx
    exact h t (List.mem_of_mem_filter ht)

/-- Witness for C7 at the spec's scenario input. -/
theorem totals_nonneg_balance_witness :
    (∀ t ∈ exampleTxs, 0 ≤ t.amount) ∧
    (0 ≤ totalIncome exampleTxs ∧ 0 ≤ totalExpenses exampleTxs ∧
      balance exampleTxs = totalIncome exampleTxs - totalExpenses exampleTxs) :=
  ⟨by norm_num +decide [exampleTxs],
   totals_nonneg_balance exampleTxs (by norm_num +decide [exampleTxs])⟩

/-- Claim C1 (amended): the savings rate is `(balance / totalIncome) * 100`
— a percentage, not a fraction — when the income is positive, and 0 when
the income is 0; on the spec's scenario it is 60, not 0.6. -/
theorem savingsRate_formula :
    (∀ txs : List Transaction,
      (0 < totalIncome txs → savingsRate txs = balance txs / totalIncome txs * 100) ∧
      (totalIncome txs = 0 → savingsRate txs = 0)) ∧
    savingsRate exampleTxs = 60 := by
  refine ⟨fun txs => ⟨fun h => ?_, fun h => ?_⟩, ?_⟩
  · rw [savingsRate, if_pos h]
  · rw [savingsRate, if_neg (by rw [h]; exact lt_irrefl 0)]
  · norm_num +decide [savingsRate, balance, totalIncome, totalExpenses, incomeOf, expensesOf,
      exampleTxs, List.filter_cons]

/-- Witness for C1 at the spec's scenario input. -/
theorem savingsRate_formula_witness :
    0 < totalIncome exampleTxs ∧
    savingsRate exampleTxs = balance exampleTxs / totalIncome exampleTxs * 100 :=
  ⟨by norm_num +decide [totalIncome, incomeOf, exampleTxs, List.filter_cons],
   (savingsRate_formula.1 exampleTxs).1
     (by norm_num +decide [totalIncome, incomeOf, exampleTxs, List.filter_cons])⟩

/-- Claim C1 counterexample: on the spec's scenario the code computes 60,
while `balance / total_income` is 3/5 = 0.6; the claimed value and the
computed value differ. -/
theorem savingsRate_fraction_counterexample :
    savingsRate exampleTxs = 60 ∧
    balance exampleTxs / totalIncome exampleTxs = 3 / 5 ∧
    (60 : ℚ) ≠ 3 / 5 := by
  refine ⟨?_, ?_, by norm_num⟩ <;>
    norm_num +decide [savingsRate, balance, totalIncome, totalExpenses, incomeOf, expensesOf,
      exampleTxs, List.filter_cons]

/-- Claim C10: for every non-empty transaction list the monthly trend is
`increasing` when the balance is positive and `decreasing` otherwise, and
`stable` is never produced. -/
theorem monthlyTrend_sign (txs : List Transaction) (_h : txs ≠ []) :
    (0 < balance txs → monthlyTrend txs = Trend.increasing) ∧
    (balance txs ≤ 0 → monthlyTrend txs = Trend.decreasing) ∧
    monthlyTrend txs ≠ Trend.stable := by
  refine ⟨fun hb => ?_, fun hb => ?_, ?_⟩
  · rw [monthlyTrend, if_pos hb]
  · rw [monthlyTrend, if_neg (not_lt.2 hb)]
  · rw [monthlyTrend]
    split_ifs <;> simp

/-- Witness for C10 at the spec's scenario input. -/
theorem monthlyTrend_sign_witness :
    exampleTxs ≠ [] ∧
    ((0 < balance exampleTxs → monthlyTrend exampleTxs = Trend.increasing) ∧
     (balance exampleTxs ≤ 0 → monthlyTrend exampleTxs = Trend.decreasing) ∧
     monthlyTrend exampleTxs ≠ Trend.stable) :=
  ⟨by simp [exampleTxs], monthlyTrend_sign exampleTxs (by simp [exampleTxs])⟩

/-- Claim C4: the debt total and monthly minimum are the sums of the
principals and minimum payments, and the payoff estimate is
`ceil(totalDebt / (available - monthlyMinimum))` exactly when the
available amount exceeds the monthly minimum, with no numeric estimate
otherwise. -/
theorem debt_payoff_estimate (debts : List Debt) (txs : List Transaction) :
    totalDebt debts = (debts.map Debt.amount).sum ∧
    monthlyDebtPayment debts = (debts.map Debt.minimumPayment).sum ∧
    (monthlyDebtPayment debts < availableForDebt txs →
      payoffMonthsEstimate debts txs =
        some ⌈totalDebt debts / (availableForDebt txs - monthlyDebtPayment debts)⌉) ∧
    (¬ monthlyDebtPayment debts < availableForDebt txs →
      payoffMonthsEstimate debts txs = none) := by
  refine ⟨?_, ?_, fun h => ?_, fun h => ?_⟩
  · rw [totalDebt, foldl_add_map, zero_add]
  · rw [monthlyDebtPayment, foldl_add_map, zero_add]
  · rw [payoffMonthsEstimate, if_pos h]
  · rw [payoffMonthsEstimate, if_neg h]

/-- Witness for C4 at the spec's debt scenario. -/
theorem debt_payoff_estimate_witness :
    monthlyDebtPayment exampleDebts < availableForDebt exampleTxs ∧
    payoffMonthsEstimate exampleDebts exampleTxs =
      some ⌈totalDebt exampleDebts /
        (availableForDebt exampleTxs - monthlyDebtPayment exampleDebts)⌉ :=
  ⟨by norm_num +decide [monthlyDebtPayment, availableForDebt, totalIncome, totalExpenses,
      incomeOf, expensesOf, exampleDebts, exampleTxs, List.filter_cons],
   (debt_payoff_estimate exampleDebts exampleTxs).2.2.1
     (by norm_num +decide [monthlyDebtPayment, availableForDebt, totalIncome, totalExpenses,
        incomeOf, expensesOf, exampleDebts, exampleTxs, List.filter_cons])⟩

/-- Claim C6: the values of the expense breakdown sum to the expense
total — every expense amount is counted in exactly one category. -/
theorem breakdown_sums_to_totalExpenses (txs : List Transaction) :
    sumValues (expenseBreakdown txs) = totalExpenses txs := by
  rw [expenseBreakdown, sumValues_foldl, totalExpenses_eq_sum]
  simp [sumValues]

/-- Claim C2 (amended): on a non-empty breakdown the top category attains
the maximal summed amount and every later category is strictly smaller
(ties go to the LAST encountered category, not the first); on an empty
breakdown the code returns the placeholder "Other". -/
theorem topExpenseCategory_last_argmax (txs : List Transaction) :
    (expenseBreakdown txs ≠ [] →
      ∃ v l1 l2, expenseBreakdown txs = l1 ++ (topExpenseCategory txs, v) :: l2 ∧
        (∀ p ∈ l1, p.2 ≤ v) ∧ (∀ p ∈ l2, p.2 < v)) ∧
    (expenseBreakdown txs = [] → topExpenseCategory txs = "Other") := by
  constructor
  · intro hne
    rw [topExpenseCategory]
    exact topFold_split _ hne (keysNodup_expenseBreakdown txs)
  · intro h
    rw [topExpenseCategory, h]
    rfl

/-- Witness for C2 at the spec's scenario input. -/
theorem topExpenseCategory_last_argmax_witness :
    expenseBreakdown exampleTxs ≠ [] ∧
    (∃ v l1 l2, expenseBreakdown exampleTxs =
        l1 ++ (topExpenseCategory exampleTxs, v) :: l2 ∧
      (∀ p ∈ l1, p.2 ≤ v) ∧ (∀ p ∈ l2, p.2 < v)) :=
  ⟨by decide, (topExpenseCategory_last_argmax exampleTxs).1 (by decide)⟩

/-- Claim C2 counterexample: with two categories tied at 100, the claim's
first-encountered rule picks "A", but the code picks "B". -/
theorem topExpenseCategory_tie_counterexample :
    dominantFirstSpec (expenseBreakdown tieTxs) = some "A" ∧
    topExpenseCategory tieTxs = "B" ∧
    ("A" : String) ≠ "B" := by
  refine ⟨by decide, by decide, by decide⟩

/-- Claim C8 (amended): the totals, balance, savings rate and each
category's summed amount are invariant under permutation of the input,
and repeated evaluation on the same list is identical; the breakdown's
key order and the tie-dependent top category are NOT invariant (see the
counterexample). -/
theorem snapshot_perm_invariant (txs1 txs2 : List Transaction)
    (hperm : txs1.Perm txs2) :
    totalIncome txs1 = totalIncome txs2 ∧
    totalExpenses txs1 = totalExpenses txs2 ∧
    balance txs1 = balance txs2 ∧
    savingsRate txs1 = savingsRate txs2 ∧
    (∀ k, valueOf (expenseBreakdown txs1) k = valueOf (expenseBreakdown txs2) k) ∧
    computeSnapshot txs1 = computeSnapshot txs1 := by
  have hinc : totalIncome txs1 = totalIncome txs2 := by
    rw [totalIncome_eq_sum, totalIncome_eq_sum]
    exact ((hperm.filter _).map _).sum_eq
  have hexp : totalExpenses txs1 = totalExpenses txs2 := by
    rw [totalExpenses_eq_sum, totalExpenses_eq_sum]
    exact ((hperm.filter _).map _).sum_eq
  have hbal : balance txs1 = balance txs2 := by rw [balance, balance, hinc, hexp]
  refine ⟨hinc, hexp, hbal, ?_, ?_, rfl⟩
  · rw [savingsRate, savingsRate, hinc, hbal]
  · intro k
    rw [valueOf_expenseBreakdown, valueOf_expenseBreakdown]
    exact ((hperm.filter _).map _).sum_eq

/-- Witness for C8: the scenario list against its reversal. -/
theorem snapshot_perm_invariant_witness :
    List.Perm exampleTxs exampleTxs.reverse ∧
    (totalIncome exampleTxs = totalIncome exampleTxs.reverse ∧
     totalExpenses exampleTxs = totalExpenses exampleTxs.reverse ∧
     balance exampleTxs = balance exampleTxs.reverse ∧
     savingsRate exampleTxs = savingsRate exampleTxs.reverse ∧
     (∀ k, valueOf (expenseBreakdown exampleTxs) k =
        valueOf (expenseBreakdown exampleTxs.reverse) k) ∧
     computeSnapshot exampleTxs = computeSnapshot exampleTxs) :=
  ⟨(List.reverse_perm exampleTxs).symm,
   snapshot_perm_invariant exampleTxs exampleTxs.reverse
     (List.reverse_perm exampleTxs).symm⟩

/-- Claim C8 counterexample: permuting two tied expense categories changes
the snapshot (the top category flips from "B" to "A"). -/
theorem snapshot_perm_counterexample :
    List.Perm tieTxs tieTxs.reverse ∧
    computeSnapshot tieTxs ≠ computeSnapshot tieTxs.reverse := by
  refine ⟨(List.reverse_perm tieTxs).symm, ?_⟩
  intro h
  have h2 : topExpenseCategory tieTxs = topExpenseCategory tieTxs.reverse :=
    congrArg FinancialData.topExpenseCategory h
  exact absurd h2 (by decide)

/-- Claim C3 (amended): the tips are exactly the matching rules' tips in
rule-declaration order; the overspending tip stays in its declared third
position even when the balance is negative. -/
theorem tips_in_rule_order (d : FinancialData) :
    getPersonalizedTips d = generateRecommendationsSpec d := by
  by_cases h1 : d.savingsRate < 20 <;>
    by_cases h2 : d.biggestExpense > d.totalExpenses * (2 / 5) <;>
      by_cases h3 : d.balance < 0 <;>
        simp [getPersonalizedTips, generateRecommendationsSpec, ruleList,
          List.filter_cons, h1, h2, h3]

/-- Claim C3 counterexample: on a negative-balance snapshot the
overspending tip is NOT first in the output; the savings tip is. -/
theorem tips_overspend_not_first_counterexample :
    (computeSnapshot overspendTxs).balance < 0 ∧
    getPersonalizedTips (computeSnapshot overspendTxs) =
      [Tip.boostSavings, Tip.optimizeBiggest "Food & Dining",
        Tip.addressOverspending] ∧
    (getPersonalizedTips (computeSnapshot overspendTxs)).head? =
      some Tip.boostSavings ∧
    Tip.boostSavings ≠ Tip.addressOverspending := by
  refine ⟨?_, ?_, ?_, by decide⟩ <;>
    norm_num +decide [getPersonalizedTips, computeSnapshot, savingsRate, balance,
      totalIncome, totalExpenses, incomeOf, expensesOf, biggestExpense,
      topExpenseCategory, topFold, expenseBreakdown, addToBreakdown,
      optGt, List.lookup, overspendTxs, List.filter_cons]

/-- Claim C9: there is always at least one tip, and the fallback appears
exactly when no threshold rule matches. -/
theorem tips_nonempty_and_fallback (d : FinancialData) :
    getPersonalizedTips d ≠ [] ∧
    (Tip.doingGreat ∈ getPersonalizedTips d ↔
      ¬(d.savingsRate < 20 ∨ d.biggestExpense > d.totalExpenses * (2 / 5) ∨
        d.balance < 0)) := by
  by_cases h1 : d.savingsRate < 20 <;>
    by_cases h2 : d.biggestExpense > d.totalExpenses * (2 / 5) <;>
      by_cases h3 : d.balance < 0 <;>
        simp [getPersonalizedTips, h1, h2, h3]

end MoneyMate
